import Mathlib

/-!
# OVH-BUY — Order Intake & Queue Scheduling Core: verification development

Shallow embedding of the repository's queue/history/monitor logic.
The UI pages under `src/` are embedded directly (the async API calls are
modelled by explicit request lists and outcome oracles); the backend
engine components described by the specification but absent from `src/`
(TaskStore, Scheduler, CommandParser, CatalogFilter, MonitorEngine) are
modelled from the specification's words, each marked `Modelled from the
spec:` in its doc comment.
-/

namespace OVHBuy

/-! ## String primitives

Structural (kernel-computable) embeddings of the JavaScript string
operations the pages use: `trim`, `toLowerCase`, whitespace
tokenization and `split(",")`. -/

/-- `s.trim()`: the string with leading and trailing whitespace
removed. -/
def strTrim (s : String) : String :=
  ⟨((s.data.dropWhile Char.isWhitespace).reverse.dropWhile
      Char.isWhitespace).reverse⟩

/-- `s.toLowerCase()` on the code points. -/
def strLower (s : String) : String :=
  ⟨s.data.map Char.toLower⟩

/-- Splits a character list at every separator, keeping empty pieces
(the behavior of `String.split` / JavaScript `split`). -/
def splitCharsAux (sep : Char → Bool) : List Char → List Char → List String
  | [], acc => [⟨acc.reverse⟩]
  | c :: cs, acc =>
    if sep c then (⟨acc.reverse⟩ : String) :: splitCharsAux sep cs []
    else splitCharsAux sep cs (c :: acc)

/-- The whitespace-separated tokens of a string, empty tokens dropped. -/
def tokenize (s : String) : List String :=
  (splitCharsAux Char.isWhitespace s.data []).filter (fun t => t ≠ "")

/-- `s.split(",")`: the comma-separated pieces of a string. -/
def splitComma (s : String) : List String :=
  splitCharsAux (fun c => c = ',') s.data []

/-- Numeric value of a decimal digit string. -/
def digitsToNat (l : List Char) : Nat :=
  l.foldl (fun n c => n * 10 + (c.toNat - '0'.toNat)) 0

/-! ## Task creation fan-out (`addQueueItem`, src/src/pages/QueuePage.tsx) -/

/-- The body of one `api.post("/queue", …)` call issued by `addQueueItem`:
`{ planCode, datacenter, retryInterval, options }`.  Note there is no
quantity field — each request creates a single task. -/
structure CreateTaskRequest where
  planCode : String
  datacenter : String
  retryInterval : Int
  options : List String
  deriving Repr, DecidableEq

/-- Embeds `Number(quantityInput) || 1` from `addQueueItem`: the numeric
parse of the quantity input is `none` for NaN, and the value `0`
(e.g. `Number("")`) is falsy, so both fall back to `1`. -/
def jsNumOr1 (v : Option Int) : Int :=
  match v with
  | none => 1
  | some n => if n = 0 then 1 else n

/-- The nested loop of `addQueueItem`
(`for dc of selectedDatacenters { for i in 0..finalQuantity-1 { api.post … } }`):
the ordered list of task-creation requests it issues. -/
def fanOutRequests (planCode : String) (selectedDatacenters : List String)
    (finalQuantity : Int) (finalRetryInterval : Int)
    (selectedOptions : List String) : List CreateTaskRequest :=
  (selectedDatacenters.map (fun dc =>
    List.replicate finalQuantity.toNat
      ⟨planCode, dc, finalRetryInterval, selectedOptions⟩)).flatten

/-- `addQueueItem` up to and including its guards: returns `none` when the
early-return validations fire (empty plan code, no datacenter selected, or
quantity below 1), otherwise the list of requests the double loop posts.
`quantityNum`/`retryNum` are the numeric parses of the two text inputs. -/
def addQueueItem (planCodeInput : String) (selectedDatacenters : List String)
    (quantityNum : Option Int) (retryNum : Option Int)
    (selectedOptions : List String) : Option (List CreateTaskRequest) :=
  if strTrim planCodeInput = "" ∨ selectedDatacenters = [] then none
  else
    let finalQuantity := jsNumOr1 quantityNum
    if finalQuantity < 1 then none
    else
      let finalRetryInterval := jsNumOr1 retryNum
      some (fanOutRequests (strTrim planCodeInput) selectedDatacenters
        finalQuantity finalRetryInterval selectedOptions)

/-- One run of the fan-out loop body against an outcome oracle:
`ok k` tells whether the `k`-th `api.post` call (0-based, in issue order)
succeeds.  Returns `(successCount, errorCount, created)` where `created`
is the list of requests whose call succeeded — a later failure never
removes an earlier success (`catch` only increments `errorCount`). -/
def runCalls (ok : Nat → Bool) : List CreateTaskRequest → Nat →
    Nat × Nat × List CreateTaskRequest
  | [], _ => (0, 0, [])
  | r :: rest, k =>
    let t := runCalls ok rest (k + 1)
    if ok k then (t.1 + 1, t.2.1, r :: t.2.2) else (t.1, t.2.1 + 1, t.2.2)

/-- Full execution of `addQueueItem` against an outcome oracle, including
the post-loop bookkeeping: the form is reset (and the queue refetched)
exactly when `successCount > 0 || errorCount === 0`. -/
def addQueueItemRun (planCodeInput : String) (selectedDatacenters : List String)
    (quantityNum : Option Int) (retryNum : Option Int)
    (selectedOptions : List String) (ok : Nat → Bool) :
    Option (Nat × Nat × List CreateTaskRequest × Bool) :=
  match addQueueItem planCodeInput selectedDatacenters quantityNum retryNum
      selectedOptions with
  | none => none
  | some reqs =>
    let t := runCalls ok reqs 0
    some (t.1, t.2.1, t.2.2, decide (t.1 > 0) || decide (t.2.1 = 0))

/-! ## Order expiry countdown (src/src/pages/HistoryPage.tsx) -/

/-- `ORDER_VALIDITY_MINUTES = 15` — OVH orders are valid for 15 minutes. -/
def ORDER_VALIDITY_MINUTES : Int := 15

/-- `getExpirationTime`: the entry's `expirationTime` when present,
otherwise `purchaseTime + ORDER_VALIDITY_MINUTES * 60 * 1000`.
Times are milliseconds since the epoch. -/
def getExpirationTime (purchaseTime : Int) (expirationTime : Option Int) : Int :=
  match expirationTime with
  | some e => e
  | none => purchaseTime + ORDER_VALIDITY_MINUTES * 60 * 1000

/-- `formatCountdown`: the expired marker for a non-positive remainder,
otherwise an `h时m分s秒` / `m分s秒` / `s秒` rendering.  For positive
`remainingMs` the `Math.floor` divisions are embedded as integer
division (`Int.ediv`, which agrees with `Math.floor` on the
non-negative operands reached here). -/
def formatCountdown (remainingMs : Int) : String :=
  if remainingMs ≤ 0 then "已过期"
  else
    let hours := remainingMs / (1000 * 60 * 60)
    let minutes := (remainingMs % (1000 * 60 * 60)) / (1000 * 60)
    let seconds := (remainingMs % (1000 * 60)) / 1000
    if hours > 0 then
      toString hours ++ "时" ++ toString minutes ++ "分" ++ toString seconds ++ "秒"
    else if minutes > 0 then
      toString minutes ++ "分" ++ toString seconds ++ "秒"
    else
      toString seconds ++ "秒"

/-! ## TaskStore and Scheduler (modelled from the spec) -/

/-- Modelled from the spec: QueueTask status domain,
status ∈ pending, running, paused, completed, failed (§3).
The `TaskStore`/`Scheduler` backend is not part of `src/`. -/
inductive Status where
  | pending
  | running
  | paused
  | completed
  | failed
  deriving Repr, DecidableEq

/-- Modelled from the spec: error taxonomy entries relevant here (§7). -/
inductive StoreError where
  | invalidTransition
  deriving Repr, DecidableEq

/-- Modelled from the spec: a QueueTask (§3).  `retryWait` marks
`pending`'s retry-wait sub-state (§4.3/§4.4); timestamps and the retry
interval are integers (ms / s respectively). -/
structure Task where
  id : Nat
  planCode : String
  datacenter : String
  options : List String
  status : Status
  retryWait : Bool
  createdAt : Int
  updatedAt : Int
  retryInterval : Int
  retryCount : Nat
  deriving Repr, DecidableEq

/-- Modelled from the spec: the `SetStatus` legal-transition table (§4.3):
pending→running, running→paused, running→completed, running→failed,
paused→running, and the retry path running→pending. -/
def legalTransition : Status → Status → Bool
  | .pending, .running => true
  | .running, .paused => true
  | .running, .completed => true
  | .running, .failed => true
  | .paused, .running => true
  | .running, .pending => true
  | _, _ => false

/-- Modelled from the spec: `SetStatus(id, newStatus)` (§4.3) viewed on the
task it addresses — on a legal transition the status is updated; an
illegal request fails with `InvalidTransition` and is a no-op. -/
def setStatus (t : Task) (newStatus : Status) : Task × Option StoreError :=
  if legalTransition t.status newStatus then
    ({ t with status := newStatus }, none)
  else
    (t, some .invalidTransition)

/-- Modelled from the spec: `ListDueForDispatch` eligibility of one task
(§4.3) — due when `pending`, or in the retry-wait sub-state with
`last-updated + retry interval <= now`; `paused` (and every other
status) is never due. -/
def dueForDispatch (t : Task) (now : Int) : Bool :=
  match t.status with
  | .pending => if t.retryWait then decide (t.updatedAt + t.retryInterval ≤ now) else true
  | _ => false

/-- Modelled from the spec: the Scheduler's transient-failure bookkeeping
(§4.4) — `retry_count += 1`, status returns to `pending`'s retry-wait
sub-state, `last-updated` becomes the failure time, and the retry
interval itself is left untouched (fixed per task, not exponential). -/
def onTransientFailure (t : Task) (now : Int) : Task :=
  { t with status := .pending, retryWait := true,
           retryCount := t.retryCount + 1, updatedAt := now }

/-- Modelled from the spec: `ListTasks` over the TaskStore state (§6) —
the store is kept in creation order, so the read is the state itself. -/
def listTasks (s : List Task) : List Task := s

/-- Modelled from the spec: `ClearAll() -> count removed` (§4.3, §5) —
one atomic snapshot-and-delete returning the prior count. -/
def clearAll (s : List Task) : Nat × List Task := (s.length, [])

/-- Modelled from the spec: applying a PurchaseExecutor outcome to the
store (§5) — the outcome lands only on a task that still exists and is
still `running`; otherwise the stale result is discarded. -/
def applyOutcome (s : List Task) (id : Nat) (success : Bool) : List Task :=
  s.map (fun t =>
    if t.id = id ∧ t.status = .running then
      { t with status := if success then .completed else .failed }
    else t)

/-! ## Scheduler dispatch concurrency (modelled from the spec) -/

/-- Modelled from the spec: the shared state seen by the concurrent
dispatch workers (§4.4, §5) — the per-task status map serialized by the
TaskStore, plus the multiset of in-flight PurchaseExecutor invocations,
tagged by the worker holding each one. -/
structure SchedState where
  status : Nat → Status
  inflight : List (Nat × Nat)

/-- Modelled from the spec: the enabling condition of an atomic claim
(§4.4) — the task is due in `pending`/retry-wait.  A worker whose claim
finds the task in any other status (already claimed → `running`) fails
the claim and skips the task. -/
def claimEnabled (s : SchedState) (id : Nat) : Prop :=
  s.status id = .pending

/-- Modelled from the spec: one atomic interleaving step of the dispatch
pool (§4.4, §5).  `claim` is the serialized pending/retry-wait → running
transition that puts one PurchaseExecutor invocation in flight;
`finish` applies the outcome of an in-flight invocation (completed,
failed, or back to pending for retry) and retires it. -/
inductive SchedStep : SchedState → SchedState → Prop where
  | claim (w id : Nat) (s : SchedState) :
      claimEnabled s id →
      SchedStep s ⟨fun j => if j = id then .running else s.status j,
                   (w, id) :: s.inflight⟩
  | finish (w id : Nat) (s : SchedState) (outcome : Status) :
      (w, id) ∈ s.inflight →
      SchedStep s ⟨fun j => if j = id then outcome else s.status j,
                   s.inflight.erase (w, id)⟩

/-- Reflexive-transitive closure of `SchedStep`. -/
inductive SchedReach : SchedState → SchedState → Prop where
  | refl (s : SchedState) : SchedReach s s
  | tail (s t u : SchedState) : SchedReach s t → SchedStep t u → SchedReach s u

/-- Number of in-flight PurchaseExecutor invocations for one task id. -/
def inflightCount (s : SchedState) (id : Nat) : Nat :=
  (s.inflight.filter (fun p => p.2 = id)).length

/-! ## CommandParser (modelled from the spec) -/

/-- Modelled from the spec: a RawIntent (§3, §4.1) — `none` in
`datacenter` is the "all available" wildcard, `none` in `options` is the
"all available configurations" wildcard. -/
structure RawIntent where
  planCode : String
  datacenter : Option String
  quantity : Nat
  options : Option (List String)
  deriving Repr, DecidableEq

/-- Modelled from the spec: parse failure taxonomy (§4.1, §7). -/
inductive ParseError where
  | malformedCommand
  deriving Repr, DecidableEq

/-- A token that is a positive integer (§4.1 disambiguation rule 2). -/
def parsePosInt (s : String) : Option Nat :=
  if s.data ≠ [] ∧ s.data.all Char.isDigit then
    let n := digitsToNat s.data
    if n > 0 then some n else none
  else none

/-- Modelled from the spec: disambiguation rule 1 (§4.1) — the leading
token is consumed as the datacenter exactly when it matches a known
datacenter code (case-insensitively); otherwise the datacenter stays
wildcard and no token is consumed. -/
def takeDatacenter (knownDCs : List String) :
    List String → Option String × List String
  | t :: ts =>
    if strLower t ∈ knownDCs then (some (strLower t), ts) else (none, t :: ts)
  | [] => (none, [])

/-- Modelled from the spec: disambiguation rule 2 (§4.1) — the leading
token is consumed as the quantity exactly when it is a positive
integer; otherwise the quantity defaults to 1 and no token is
consumed. -/
def takeQuantity : List String → Nat × List String
  | t :: ts =>
    match parsePosInt t with
    | some n => (n, ts)
    | none => (1, t :: ts)
  | [] => (1, [])

/-- Modelled from the spec: rule 3 (§4.1) — a remaining token is the
comma-separated options list; no remaining token keeps the "all
available configurations" wildcard. -/
def takeOptions : List String → Option (List String)
  | t :: _ => some (splitComma t)
  | [] => none

/-- Modelled from the spec: `Parse` on the whitespace-split token list
(§4.1).  Grammar `planCode [datacenter] [quantity] [options]`,
case-insensitive plan/datacenter codes, disambiguation rules applied in
priority order to the tokens after the plan code; a missing or empty
plan-code token fails with `MalformedCommand`. -/
def parseTokens (knownDCs : List String) :
    List String → Except ParseError RawIntent
  | [] => .error .malformedCommand
  | plan :: rest =>
    if plan = "" then .error .malformedCommand
    else
      let dcSplit := takeDatacenter knownDCs rest
      let qtySplit := takeQuantity dcSplit.2
      .ok ⟨strLower plan, dcSplit.1, qtySplit.1, takeOptions qtySplit.2⟩

/-- Modelled from the spec: `Parse(text)` (§4.1) — whitespace
tokenization followed by `parseTokens`. -/
def parseCommand (knownDCs : List String) (text : String) :
    Except ParseError RawIntent :=
  parseTokens knownDCs (tokenize text)

/-! ## CatalogFilter (modelled from the spec) -/

/-- Modelled from the spec: a resolved PurchaseIntent (§3) — datacenter
never wildcard after resolution. -/
structure PurchaseIntent where
  planCode : String
  datacenter : String
  options : List String
  quantity : Nat
  deriving Repr, DecidableEq

/-- Modelled from the spec: resolution failure taxonomy (§4.2, §7). -/
inductive ResolutionError where
  | noAvailableTarget
  deriving Repr, DecidableEq

/-- Modelled from the spec: the live catalog data for one plan (§4.2,
§6 `GetCatalog`): in-stock datacenters, the available option-set
combinations, and the plan's default configuration. -/
structure Catalog where
  datacenters : List String
  configs : List (List String)
  defaultConfig : List String
  deriving Repr, DecidableEq

/-- An available configuration matches an explicit option request when it
contains every requested option (the repository's stated matching rule:
only configurations containing the requested options qualify). -/
def configMatches (requested : List String) (cfg : List String) : Bool :=
  requested.all (fun o => cfg.contains o)

/-- Modelled from the spec: the qualifying datacenters of `Resolve`
(§4.2) — the explicit choice intersected with catalog availability, or
all in-stock datacenters under the wildcard. -/
def candidateDatacenters (intent : RawIntent) (cat : Catalog) : List String :=
  match intent.datacenter with
  | some d => cat.datacenters.filter (fun c => c = d)
  | none => cat.datacenters

/-- Modelled from the spec: `Resolve(RawIntent, catalog)` (§4.2) —
candidate option-sets are the matching available configurations,
falling back to the plan's default configuration when explicit options
match none; the result is candidate datacenters × option-sets; zero
qualifying datacenters yields an empty sequence with
`NoAvailableTarget`. -/
def resolveIntent (intent : RawIntent) (cat : Catalog) :
    List PurchaseIntent × Option ResolutionError :=
  let candidateDCs : List String := candidateDatacenters intent cat
  let optionSets : List (List String) :=
    match intent.options with
    | none => cat.configs
    | some opts =>
      match cat.configs.filter (configMatches opts) with
      | [] => [cat.defaultConfig]
      | matching => matching
  match candidateDCs with
  | [] => ([], some .noAvailableTarget)
  | _ =>
    ((candidateDCs.map (fun dc =>
        optionSets.map (fun cfg =>
          ⟨intent.planCode, dc, cfg, intent.quantity⟩))).flatten, none)

/-! ## MonitorEngine (modelled from the spec) -/

/-- Modelled from the spec: one MonitorEngine polling tick for a single
watched datacenter of an auto-order subscription (§4.6) — the new status
is compared to the last-known one (absent counts as unknown, any
concrete status is a change from unknown); an auto-order task is
enqueued exactly when that comparison is a change into "available"; the
last-known status is updated unconditionally.  Returns (number of
auto-order tasks enqueued, new last-known status). -/
def monitorTick (lastKnown : Option String) (observed : String) :
    Nat × Option String :=
  let changed := lastKnown ≠ some observed
  ((if changed ∧ observed = "available" then 1 else 0), some observed)

/-- Total number of auto-order tasks enqueued over a run of polling
ticks, threading the last-known status. -/
def countAutoOrders (lastKnown : Option String) : List String → Nat
  | [] => 0
  | o :: rest =>
    (monitorTick lastKnown o).1 + countAutoOrders (monitorTick lastKnown o).2 rest

/-! ## Theorems -/

/-- Every string of the countdown's formatting branches ends in the
seconds marker, so it is never the expired marker. -/
theorem strAppend_sec_ne_expired (a : String) : a ++ "秒" ≠ "已过期" := by
  intro h
  have hd : a.data ++ ['秒'] = ['已', '过', '期'] := by
    have hdata := congrArg String.data h
    simpa [String.data_append] using hdata
  have hrev : ('秒' :: a.data.reverse) = ['期', '过', '已'] := by
    simpa using congrArg List.reverse hd
  injection hrev with hc _
  exact absurd hc (by decide)

/-- C10: for every purchase-history entry, `getExpirationTime` returns the
entry's `expirationTime` when present and otherwise `purchaseTime` plus
exactly 15 minutes (`ORDER_VALIDITY_MINUTES * 60 * 1000` ms = 900000 ms),
and `formatCountdown` returns the expired marker exactly when the
remaining time is ≤ 0 milliseconds. -/
theorem expiration_countdown_spec :
    (∀ p e : Int, getExpirationTime p (some e) = e) ∧
    (∀ p : Int, getExpirationTime p none = p + ORDER_VALIDITY_MINUTES * 60 * 1000) ∧
    ORDER_VALIDITY_MINUTES * 60 * 1000 = (900000 : Int) ∧
    (∀ r : Int, formatCountdown r = "已过期" ↔ r ≤ 0) := by
  refine ⟨fun _ _ => rfl, fun _ => rfl, by decide, fun r => ?_⟩
  constructor
  · intro h
    by_contra hr
    rw [formatCountdown, if_neg hr] at h
    dsimp only at h
    split_ifs at h <;> exact strAppend_sec_ne_expired _ h
  · intro h
    rw [formatCountdown, if_pos h]

/-- C8: `ClearAll` removes every task in one atomic snapshot-and-delete,
returns exactly the number of tasks present immediately before the call,
a subsequent `ListTasks` returns the empty sequence, and a stale
in-flight outcome arriving afterwards finds its task missing and is
discarded (the store is left unchanged). -/
theorem clearAll_spec :
    (∀ s : List Task, (clearAll s).1 = (listTasks s).length) ∧
    (∀ s : List Task, listTasks (clearAll s).2 = []) ∧
    (∀ (s : List Task) (id : Nat) (success : Bool),
      applyOutcome (clearAll s).2 id success = (clearAll s).2) :=
  ⟨fun _ => rfl, fun _ => rfl, fun _ _ _ => rfl⟩

/-- C6: MonitorEngine auto-order is edge-triggered — from any last-known
status, a second consecutive "available" poll without an intervening
different observation enqueues nothing beyond the first, and a single
transition into "available" from unknown enqueues exactly one task. -/
theorem monitor_edge_triggered :
    (∀ (lastKnown : Option String) (rest : List String),
      countAutoOrders lastKnown ("available" :: "available" :: rest) =
        countAutoOrders lastKnown ("available" :: rest)) ∧
    countAutoOrders none ["available", "available"] = 1 := by
  constructor
  · intro lastKnown rest
    simp [countAutoOrders, monitorTick]
  · rfl

/-- C5: after a transient purchase failure the Scheduler increments
`retry_count` by exactly 1, keeps the retry interval unchanged (fixed per
task, never exponential), returns the task to pending's retry-wait
sub-state, and the task is due for dispatch again exactly when
`now ≥ last-updated + retry interval`. -/
theorem transientFailure_retry_spec :
    ∀ (t : Task) (now later : Int),
      (onTransientFailure t now).retryCount = t.retryCount + 1 ∧
      (onTransientFailure t now).retryInterval = t.retryInterval ∧
      (onTransientFailure t now).status = .pending ∧
      (onTransientFailure t now).retryWait = true ∧
      (∀ n, ((setStatus t n).1).retryInterval = t.retryInterval) ∧
      (dueForDispatch (onTransientFailure t now) later = true ↔
        now + t.retryInterval ≤ later) := by
  intro t now later
  refine ⟨rfl, rfl, rfl, rfl, ?_, ?_⟩
  · intro n
    unfold setStatus
    split <;> rfl
  · simp [onTransientFailure, dueForDispatch]

/-- C3: `SetStatus` permits exactly the transitions pending→running,
running→paused, running→completed, running→failed, paused→running and
the scheduler's retry path running→pending; every other request — in
particular completed→running and failed→running — fails with
`InvalidTransition` and leaves the task unchanged. -/
theorem setStatus_transition_spec :
    ∀ (t : Task) (n : Status),
      ((setStatus t n).2 = none ↔
        (t.status = .pending ∧ n = .running) ∨
        (t.status = .running ∧ n = .paused) ∨
        (t.status = .running ∧ n = .completed) ∨
        (t.status = .running ∧ n = .failed) ∨
        (t.status = .paused ∧ n = .running) ∨
        (t.status = .running ∧ n = .pending)) ∧
      ((setStatus t n).2 = none → (setStatus t n).1 = { t with status := n }) ∧
      ((setStatus t n).2 ≠ none →
        (setStatus t n).2 = some .invalidTransition ∧ (setStatus t n).1 = t) ∧
      setStatus { t with status := .completed } .running =
        ({ t with status := .completed }, some .invalidTransition) ∧
      setStatus { t with status := .failed } .running =
        ({ t with status := .failed }, some .invalidTransition) := by
  intro t n
  rcases t with ⟨id, pc, dc, opts, st, rw, c, u, ri, rc⟩
  cases st <;> cases n <;> simp [setStatus, legalTransition]

theorem fanOutRequests_length (plan : String) (dcs : List String) (q ri : Int)
    (opts : List String) :
    (fanOutRequests plan dcs q ri opts).length = dcs.length * q.toNat := by
  induction dcs with
  | nil => simp [fanOutRequests]
  | cons d ds ih =>
    simp only [fanOutRequests, List.map_cons, List.flatten_cons,
      List.length_append, List.length_replicate, List.length_cons] at ih ⊢
    rw [ih, Nat.succ_mul, Nat.add_comm]

theorem fanOutRequests_mem (plan : String) (dcs : List String) (q ri : Int)
    (opts : List String) (r : CreateTaskRequest)
    (hr : r ∈ fanOutRequests plan dcs q ri opts) :
    r.datacenter ∈ dcs ∧ r = ⟨plan, r.datacenter, ri, opts⟩ := by
  simp only [fanOutRequests, List.mem_flatten, List.mem_map] at hr
  obtain ⟨l, ⟨dc, hdc, rfl⟩, hrl⟩ := hr
  have hre := List.eq_of_mem_replicate hrl
  subst hre
  exact ⟨hdc, rfl⟩

theorem fanOutRequests_countDC (plan : String) (dcs : List String) (q ri : Int)
    (opts : List String) (dc : String) :
    ((fanOutRequests plan dcs q ri opts).filter
      (fun r => r.datacenter = dc)).length = dcs.count dc * q.toNat := by
  induction dcs with
  | nil => simp [fanOutRequests]
  | cons d ds ih =>
    simp only [fanOutRequests, List.map_cons, List.flatten_cons,
      List.filter_append, List.length_append, List.count_cons] at ih ⊢
    rw [ih]
    by_cases hd : d = dc
    · subst hd
      simp only [List.filter_replicate]
      simp [Nat.add_mul]
      omega
    · have hbeq : (d == dc) = false := by simpa using hd
      simp only [List.filter_replicate]
      simp [hd, hbeq]

theorem addQueueItem_eq (plan : String) (dcs : List String) (N : Int)
    (retry : Option Int) (opts : List String)
    (hplan : strTrim plan ≠ "") (hdcs : dcs ≠ []) (hN : 1 ≤ N) :
    addQueueItem plan dcs (some N) retry opts =
      some (fanOutRequests (strTrim plan) dcs N (jsNumOr1 retry) opts) := by
  have hq : jsNumOr1 (some N) = N := by
    rw [show jsNumOr1 (some N) = if N = 0 then 1 else N from rfl,
      if_neg (by omega)]
  unfold addQueueItem
  rw [if_neg (by push_neg; exact ⟨hplan, hdcs⟩)]
  dsimp only
  rw [hq, if_neg (by omega)]

/-- C1: for every requested quantity N ≥ 1 and non-empty datacenter
selection D, `addQueueItem` issues exactly |D| × N independent
single-task creation requests — N per selected datacenter — and each
request body carries plan code, datacenter, retry interval and options
only, never an internal quantity counter. -/
theorem addQueueItem_fanout_spec (plan : String) (dcs : List String)
    (N : Int) (retry : Option Int) (opts : List String)
    (hplan : strTrim plan ≠ "") (hdcs : dcs ≠ []) (hN : 1 ≤ N) :
    ∃ reqs, addQueueItem plan dcs (some N) retry opts = some reqs ∧
      reqs.length = dcs.length * N.toNat ∧
      (∀ dc, (reqs.filter (fun r => r.datacenter = dc)).length =
        dcs.count dc * N.toNat) ∧
      (∀ r ∈ reqs, r.datacenter ∈ dcs ∧
        r = ⟨strTrim plan, r.datacenter, jsNumOr1 retry, opts⟩) := by
  refine ⟨_, addQueueItem_eq plan dcs N retry opts hplan hdcs hN,
    fanOutRequests_length _ _ _ _ _, fun dc => fanOutRequests_countDC _ _ _ _ _ _,
    fun r hr => fanOutRequests_mem _ _ _ _ _ _ hr⟩

theorem addQueueItem_fanout_spec_witness :
    ∃ reqs, addQueueItem "24sk202" ["rbx", "gra", "sbg"] (some 2) (some 30)
        ["ram-64g"] = some reqs ∧
      reqs.length = ["rbx", "gra", "sbg"].length * (2 : Int).toNat ∧
      (∀ dc, (reqs.filter (fun r => r.datacenter = dc)).length =
        ["rbx", "gra", "sbg"].count dc * (2 : Int).toNat) ∧
      (∀ r ∈ reqs, r.datacenter ∈ ["rbx", "gra", "sbg"] ∧
        r = ⟨strTrim "24sk202", r.datacenter, jsNumOr1 (some 30), ["ram-64g"]⟩) :=
  addQueueItem_fanout_spec "24sk202" ["rbx", "gra", "sbg"] 2 (some 30)
    ["ram-64g"] (by decide) (by decide) (by decide)

theorem runCalls_spec (ok : Nat → Bool) (reqs : List CreateTaskRequest) :
    ∀ k, (runCalls ok reqs k).1 + (runCalls ok reqs k).2.1 = reqs.length ∧
      (runCalls ok reqs k).2.2.length = (runCalls ok reqs k).1 ∧
      (runCalls ok reqs k).2.2.Sublist reqs := by
  induction reqs with
  | nil => exact fun k => ⟨rfl, rfl, List.Sublist.refl _⟩
  | cons r rest ih =>
    intro k
    obtain ⟨h1, h2, h3⟩ := ih (k + 1)
    cases h : ok k
    · simp only [runCalls, h, Bool.false_eq_true, if_false, List.length_cons]
      exact ⟨by omega, h2, List.Sublist.cons r h3⟩
    · simp only [runCalls, h, if_true, List.length_cons]
      exact ⟨by omega, by simpa using h2, List.Sublist.cons₂ r h3⟩

/-- C9: the fan-out in `addQueueItem` is not atomic — each of the |D|×N
creations is an independent call, a failed call never removes an already
created task (the successful creations form a subsequence of the request
list), after the loop `successCount + errorCount = |D|×N`, and the input
form is reset exactly when `successCount > 0` or `errorCount = 0`. -/
theorem addQueueItemRun_spec (plan : String) (dcs : List String) (N : Int)
    (retry : Option Int) (opts : List String) (ok : Nat → Bool)
    (hplan : strTrim plan ≠ "") (hdcs : dcs ≠ []) (hN : 1 ≤ N) :
    ∃ reqs s e created reset,
      addQueueItem plan dcs (some N) retry opts = some reqs ∧
      addQueueItemRun plan dcs (some N) retry opts ok =
        some (s, e, created, reset) ∧
      s + e = dcs.length * N.toNat ∧
      created.length = s ∧ created.Sublist reqs ∧
      (reset = true ↔ (0 < s ∨ e = 0)) := by
  have heq := addQueueItem_eq plan dcs N retry opts hplan hdcs hN
  obtain ⟨h1, h2, h3⟩ :=
    runCalls_spec ok (fanOutRequests (strTrim plan) dcs N (jsNumOr1 retry) opts) 0
  refine ⟨fanOutRequests (strTrim plan) dcs N (jsNumOr1 retry) opts,
    (runCalls ok (fanOutRequests (strTrim plan) dcs N (jsNumOr1 retry) opts) 0).1,
    (runCalls ok (fanOutRequests (strTrim plan) dcs N (jsNumOr1 retry) opts) 0).2.1,
    (runCalls ok (fanOutRequests (strTrim plan) dcs N (jsNumOr1 retry) opts) 0).2.2,
    decide ((runCalls ok (fanOutRequests (strTrim plan) dcs N
        (jsNumOr1 retry) opts) 0).1 > 0) ||
      decide ((runCalls ok (fanOutRequests (strTrim plan) dcs N
        (jsNumOr1 retry) opts) 0).2.1 = 0),
    heq, ?_, ?_, h2, h3, ?_⟩
  · unfold addQueueItemRun
    rw [heq]
  · rw [h1, fanOutRequests_length]
  · simp [Bool.or_eq_true, decide_eq_true_iff]

theorem addQueueItemRun_spec_witness :
    ∃ reqs s e created reset,
      addQueueItem "24sk202" ["rbx", "gra"] (some 2) (some 30) [] = some reqs ∧
      addQueueItemRun "24sk202" ["rbx", "gra"] (some 2) (some 30) []
        (fun k => decide (k ≠ 1)) = some (s, e, created, reset) ∧
      s + e = ["rbx", "gra"].length * (2 : Int).toNat ∧
      created.length = s ∧ created.Sublist reqs ∧
      (reset = true ↔ (0 < s ∨ e = 0)) :=
  addQueueItemRun_spec "24sk202" ["rbx", "gra"] 2 (some 30) []
    (fun k => decide (k ≠ 1)) (by decide) (by decide) (by decide)

theorem takeDatacenter_pos (dcs : List String) (t : String) (ts : List String)
    (h : strLower t ∈ dcs) :
    takeDatacenter dcs (t :: ts) = (some (strLower t), ts) := by
  simp [takeDatacenter, h]

theorem takeDatacenter_neg (dcs : List String) (t : String) (ts : List String)
    (h : strLower t ∉ dcs) :
    takeDatacenter dcs (t :: ts) = (none, t :: ts) := by
  simp [takeDatacenter, h]

theorem takeQuantity_pos (t : String) (ts : List String) (n : Nat)
    (h : parsePosInt t = some n) :
    takeQuantity (t :: ts) = (n, ts) := by
  simp [takeQuantity, h]

theorem takeQuantity_neg (t : String) (ts : List String)
    (h : parsePosInt t = none) :
    takeQuantity (t :: ts) = (1, t :: ts) := by
  simp [takeQuantity, h]

/-- C4: the token after the plan code is classified as a datacenter only
when it matches a known datacenter code, else as the quantity when it is
a positive integer, else as the start of the options list; hence
"24sk202 rbx 3 ram-64g,softraid-2x450" parses to datacenter rbx,
quantity 3 and those two options, "24sk202" to wildcard datacenter,
quantity 1 and wildcard options, and "24sk202 3" to wildcard datacenter,
quantity 3 and wildcard options with "3" never classified as a
datacenter. -/
theorem parseCommand_disambiguation (dcs : List String)
    (hrbx : "rbx" ∈ dcs) (h3 : "3" ∉ dcs) :
    parseCommand dcs "24sk202 rbx 3 ram-64g,softraid-2x450" =
      .ok ⟨"24sk202", some "rbx", 3, some ["ram-64g", "softraid-2x450"]⟩ ∧
    parseCommand dcs "24sk202" = .ok ⟨"24sk202", none, 1, none⟩ ∧
    parseCommand dcs "24sk202 3" = .ok ⟨"24sk202", none, 3, none⟩ ∧
    (∀ (plan t : String) (ts : List String) (intent : RawIntent),
      parseTokens dcs (plan :: t :: ts) = .ok intent →
      (∀ d, intent.datacenter = some d → d ∈ dcs ∧ d = strLower t) ∧
      (strLower t ∉ dcs →
        intent.datacenter = none ∧
        (∀ n, parsePosInt t = some n → intent.quantity = n) ∧
        (parsePosInt t = none →
          intent.quantity = 1 ∧ intent.options = some (splitComma t)))) := by
  refine ⟨?_, rfl, ?_, ?_⟩
  · unfold parseCommand
    rw [show tokenize "24sk202 rbx 3 ram-64g,softraid-2x450" =
      ["24sk202", "rbx", "3", "ram-64g,softraid-2x450"] from rfl]
    simp only [parseTokens]
    rw [if_neg (by decide),
      takeDatacenter_pos dcs "rbx" ["3", "ram-64g,softraid-2x450"]
        (show strLower "rbx" ∈ dcs from hrbx)]
    rfl
  · unfold parseCommand
    rw [show tokenize "24sk202 3" = ["24sk202", "3"] from rfl]
    simp only [parseTokens]
    rw [if_neg (by decide),
      takeDatacenter_neg dcs "3" [] (show strLower "3" ∉ dcs from h3)]
    rfl
  · intro plan t ts intent hok
    by_cases hpl : plan = ""
    · rw [hpl] at hok
      simp [parseTokens] at hok
    · simp only [parseTokens, if_neg hpl] at hok
      by_cases hm : strLower t ∈ dcs
      · rw [takeDatacenter_pos dcs t ts hm] at hok
        dsimp only at hok
        injection hok with hok
        subst hok
        constructor
        · intro d hd
          simp only [Option.some.injEq] at hd
          subst hd
          exact ⟨hm, rfl⟩
        · intro hcontra
          exact absurd hm hcontra
      · rw [takeDatacenter_neg dcs t ts hm] at hok
        dsimp only at hok
        cases hq : parsePosInt t with
        | some n =>
          rw [takeQuantity_pos t ts n hq] at hok
          injection hok with hok
          subst hok
          exact ⟨fun d hd => by simp at hd, fun _ => ⟨rfl,
            fun m hm2 => Option.some.inj hm2,
            fun hnone => absurd hnone (by simp)⟩⟩
        | none =>
          rw [takeQuantity_neg t ts hq] at hok
          injection hok with hok
          subst hok
          exact ⟨fun d hd => by simp at hd, fun _ => ⟨rfl,
            fun m hm2 => by simp at hm2, fun _ => ⟨rfl, rfl⟩⟩⟩

theorem parseCommand_disambiguation_witness :
    parseCommand ["rbx", "gra", "sbg"] "24sk202 rbx 3 ram-64g,softraid-2x450" =
      .ok ⟨"24sk202", some "rbx", 3, some ["ram-64g", "softraid-2x450"]⟩ ∧
    parseCommand ["rbx", "gra", "sbg"] "24sk202" =
      .ok ⟨"24sk202", none, 1, none⟩ ∧
    parseCommand ["rbx", "gra", "sbg"] "24sk202 3" =
      .ok ⟨"24sk202", none, 3, none⟩ ∧
    (∀ (plan t : String) (ts : List String) (intent : RawIntent),
      parseTokens ["rbx", "gra", "sbg"] (plan :: t :: ts) = .ok intent →
      (∀ d, intent.datacenter = some d → d ∈ ["rbx", "gra", "sbg"] ∧
        d = strLower t) ∧
      (strLower t ∉ ["rbx", "gra", "sbg"] →
        intent.datacenter = none ∧
        (∀ n, parsePosInt t = some n → intent.quantity = n) ∧
        (parsePosInt t = none →
          intent.quantity = 1 ∧ intent.options = some (splitComma t)))) :=
  parseCommand_disambiguation ["rbx", "gra", "sbg"] (by decide) (by decide)

theorem flatten_map_single {α β : Type} (l : List α) (f : α → β) :
    (l.map (fun a => [f a])).flatten = l.map f := by
  induction l with
  | nil => rfl
  | cons a as ih => simp [ih]

/-- C7: when a RawIntent carries explicit options that match no available
configuration, `Resolve` falls back to the plan's default configuration
for every qualifying datacenter (at the requested quantity) and produces
those intents rather than zero PurchaseIntents. -/
theorem resolveIntent_default_fallback (intent : RawIntent) (cat : Catalog)
    (opts : List String)
    (hopts : intent.options = some opts)
    (hnomatch : ∀ cfg ∈ cat.configs, configMatches opts cfg = false)
    (hdc : candidateDatacenters intent cat ≠ []) :
    (resolveIntent intent cat).1 =
      (candidateDatacenters intent cat).map (fun dc =>
        ⟨intent.planCode, dc, cat.defaultConfig, intent.quantity⟩) ∧
    (resolveIntent intent cat).1 ≠ [] ∧
    (resolveIntent intent cat).2 = none ∧
    (∀ pi ∈ (resolveIntent intent cat).1, pi.options = cat.defaultConfig) := by
  have hfilter : cat.configs.filter (configMatches opts) = [] :=
    List.filter_eq_nil_iff.mpr (by simpa using hnomatch)
  obtain ⟨d, ds, hcd⟩ : ∃ d ds, candidateDatacenters intent cat = d :: ds := by
    cases h : candidateDatacenters intent cat with
    | nil => exact absurd h hdc
    | cons d ds => exact ⟨d, ds, rfl⟩
  have hres : resolveIntent intent cat =
      (((d :: ds).map (fun dc =>
        [(⟨intent.planCode, dc, cat.defaultConfig, intent.quantity⟩ :
          PurchaseIntent)])).flatten, none) := by
    unfold resolveIntent
    rw [hopts, hcd]
    dsimp only
    rw [hfilter]
    rfl
  rw [hres, hcd]
  rw [flatten_map_single]
  refine ⟨rfl, by simp, rfl, ?_⟩
  intro pi hpi
  simp only [List.mem_map] at hpi
  obtain ⟨dc, _, rfl⟩ := hpi
  rfl

theorem resolveIntent_default_fallback_witness :
    (resolveIntent ⟨"24sk202", some "rbx", 3, some ["ram-64g"]⟩
        ⟨["rbx", "gra"], [["x"], ["y"]], ["def-a", "def-b"]⟩).1 =
      (candidateDatacenters ⟨"24sk202", some "rbx", 3, some ["ram-64g"]⟩
        ⟨["rbx", "gra"], [["x"], ["y"]], ["def-a", "def-b"]⟩).map (fun dc =>
          ⟨"24sk202", dc, ["def-a", "def-b"], 3⟩) ∧
    (resolveIntent ⟨"24sk202", some "rbx", 3, some ["ram-64g"]⟩
        ⟨["rbx", "gra"], [["x"], ["y"]], ["def-a", "def-b"]⟩).1 ≠ [] ∧
    (resolveIntent ⟨"24sk202", some "rbx", 3, some ["ram-64g"]⟩
        ⟨["rbx", "gra"], [["x"], ["y"]], ["def-a", "def-b"]⟩).2 = none ∧
    (∀ pi ∈ (resolveIntent ⟨"24sk202", some "rbx", 3, some ["ram-64g"]⟩
        ⟨["rbx", "gra"], [["x"], ["y"]], ["def-a", "def-b"]⟩).1,
      pi.options = ["def-a", "def-b"]) :=
  resolveIntent_default_fallback ⟨"24sk202", some "rbx", 3, some ["ram-64g"]⟩
    ⟨["rbx", "gra"], [["x"], ["y"]], ["def-a", "def-b"]⟩ ["ram-64g"]
    rfl (by decide) (by decide)

/-- The claim discipline's inductive invariant: no two in-flight
invocations share a task id, and every in-flight invocation's task is
`running`. -/
def SchedInv (s : SchedState) : Prop :=
  s.inflight.Pairwise (fun p q => p.2 ≠ q.2) ∧
  ∀ w id, (w, id) ∈ s.inflight → s.status id = .running

theorem pairwise_snd_filter_len (l : List (Nat × Nat)) (id : Nat)
    (h : l.Pairwise (fun p q => p.2 ≠ q.2)) :
    (l.filter (fun p => p.2 = id)).length ≤ 1 := by
  induction l with
  | nil => simp
  | cons p l' ih =>
    rw [List.pairwise_cons] at h
    obtain ⟨h1, h2⟩ := h
    by_cases hp : p.2 = id
    · have hempty : l'.filter (fun q => q.2 = id) = [] := by
        refine List.filter_eq_nil_iff.mpr ?_
        intro q hq
        simp only [decide_eq_true_iff]
        intro hq2
        exact h1 q hq (hp.trans hq2.symm)
      simp [List.filter_cons, hp, hempty]
    · simp only [List.filter_cons, decide_eq_true_iff]
      rw [if_neg hp]
      exact ih h2

theorem schedStep_inv (s t : SchedState) (hst : SchedStep s t)
    (hinv : SchedInv s) : SchedInv t := by
  obtain ⟨hpw, hrun⟩ := hinv
  cases hst with
  | claim w id s' henabled =>
    constructor
    · rw [List.pairwise_cons]
      refine ⟨?_, hpw⟩
      intro q hq heq
      have := hrun q.1 q.2 (by
        have : (q.1, q.2) = q := rfl
        rw [this]
        exact hq)
      rw [← heq] at this
      unfold claimEnabled at henabled
      rw [henabled] at this
      exact absurd this (by simp)
    · intro w' id' hmem
      rcases List.mem_cons.mp hmem with heq | hmem'
      · have hid : id' = id := congrArg Prod.snd heq
        subst hid
        simp
      · have := hrun w' id' hmem'
        by_cases hj : id' = id
        · subst hj
          simp
        · simpa [hj] using this
  | finish w id s' outcome hmem =>
    have hnodup : s.inflight.Nodup :=
      hpw.imp (fun h heq => h (congrArg Prod.snd heq))
    constructor
    · exact hpw.sublist (s.inflight.erase_sublist (w, id))
    · intro w' id' hmem'
      have hmem'' : (w', id') ∈ s.inflight :=
        List.mem_of_mem_erase hmem'
      by_cases hj : id' = id
      · subst hj
        have hne : (w', id') ≠ (w, id') :=
          ((List.Nodup.mem_erase_iff hnodup).mp hmem').1
        have hrel : (w', id').2 ≠ (w, id').2 :=
          hpw.forall (by intro x y hab heq; exact hab heq.symm) hmem'' hmem hne
        exact absurd rfl hrel
      · have := hrun w' id' hmem''
        simpa [hj] using this

theorem schedReach_inv (s t : SchedState) (hreach : SchedReach s t)
    (hinv : SchedInv s) : SchedInv t := by
  induction hreach with
  | refl => exact hinv
  | tail t u hr hstep ih => exact schedStep_inv t u hstep ih

/-- C2: starting from any state with no in-flight attempt, under any
interleaving of racing dispatch workers, at most one PurchaseExecutor
invocation is in flight per task id at every instant, and while one is
in flight the claim of that task is disabled (a concurrent worker fails
the claim and skips the task). -/
theorem scheduler_at_most_one_inflight (s0 s : SchedState) (id : Nat)
    (hinit : s0.inflight = []) (hreach : SchedReach s0 s) :
    inflightCount s id ≤ 1 ∧
    (∀ w, (w, id) ∈ s.inflight → ¬ claimEnabled s id) := by
  have hinv : SchedInv s := by
    refine schedReach_inv s0 s hreach ⟨?_, ?_⟩
    · rw [hinit]
      exact List.Pairwise.nil
    · intro w id' hmem
      rw [hinit] at hmem
      simp at hmem
  obtain ⟨hpw, hrun⟩ := hinv
  refine ⟨pairwise_snd_filter_len s.inflight id hpw, ?_⟩
  intro w hmem henabled
  have := hrun w id hmem
  unfold claimEnabled at henabled
  rw [henabled] at this
  exact absurd this (by simp)

theorem scheduler_at_most_one_inflight_witness :
    inflightCount ⟨fun _ => Status.pending, []⟩ 0 ≤ 1 ∧
    (∀ w, (w, 0) ∈ (⟨fun _ => Status.pending, []⟩ : SchedState).inflight →
      ¬ claimEnabled ⟨fun _ => Status.pending, []⟩ 0) :=
  scheduler_at_most_one_inflight ⟨fun _ => Status.pending, []⟩
    ⟨fun _ => Status.pending, []⟩ 0 rfl (SchedReach.refl _)

end OVHBuy
